import Mathlib

/-!
Verification development for the performance-counter acquisition and
pressure-scoring subsystem of `native_win_monitor_v2.py`.

The native PDH subsystem (library loading, `PdhOpenQueryW`,
`PdhAddEnglishCounterW`/`PdhAddCounterW`, `PdhCollectQueryData`,
`PdhGetFormattedCounterValue`, `PdhExpandWildCardPathW`) is modelled as a
static oracle (`PdhEnv`): each native entry point becomes a total function
returning the status code and the out-parameter values the call would
produce.  Status codes are 32-bit values embedded as `Int` (`0` = success).
Counter handles are embedded as `Nat`, with `0` standing for a null
handle (in the source a `wintypes.HANDLE()` whose `.value` is falsy).
Python dictionaries keyed by strings become functions `String → Option _`.
IEEE doubles are embedded as exact rationals (`ℚ`) where only field
arithmetic and comparisons occur, and as reals (`ℝ`) where `math.log10`
is involved; the Python `round` (round-half-to-even) is embedded as
`pyround`.
-/

namespace WinMon

/-- The `PDH_FMT_DOUBLE` flag (line 11 of the source). -/
def PDH_FMT_DOUBLE : Int := 0x00000200

/-- The `PDH_FMT_LARGE` flag (line 12 of the source). -/
def PDH_FMT_LARGE : Int := 0x00000400

/-- The `PDH_MORE_DATA` status (line 13 of the source). -/
def PDH_MORE_DATA : Int := 0x800007D2

/-- Python dict assignment `m[k] = v` on a string-keyed dict. -/
def mapInsert {α : Type} (k : String) (v : α) (m : String → Option α) :
    String → Option α :=
  fun q => if q = k then some v else m q

/-- Static oracle for the native PDH subsystem and the process environment.
`machine` is the (already stripped) value of `COMPUTERNAME`. -/
structure PdhEnv where
  loadOk : Bool
  hasAddEnglish : Bool
  hasAddStd : Bool
  openStatus : Int
  add : String → Int × Nat
  collectStatus : Int
  getFmtDouble : Nat → Int × ℚ
  getFmtLarge : Nat → Int × ℤ
  expand1 : String → Int × Nat
  expand2 : String → Int × List String
  machine : String

/-- The diagnostic bookkeeping mutated by registration:
`_add_status` and `_chosen_paths` (lines 71-72 of the source). -/
structure RegState where
  addStatus : String → Option Int
  chosen : String → Option String

/-- Model of `PdhCounters._add_counter_multi` (lines 155-163): try candidate paths in
order, record the status of every attempt in `_add_status`, store the handle and
the chosen path at the first success, and stop there.  The `Nat` argument is
the current value of the out-handle for the metric (`0` when never registered). -/
def addCounterMulti (env : PdhEnv) (name : String) :
    List String → RegState → Nat → RegState × Nat
  | [], st, h => (st, h)
  | p :: rest, st, h =>
    let r := env.add p
    let st1 : RegState := { st with addStatus := mapInsert p r.1 st.addStatus }
    if r.1 = 0 then
      ({ st1 with chosen := mapInsert name p st1.chosen }, r.2)
    else
      addCounterMulti env name rest st1 h

/-- Does `pat` occur as a contiguous sub-sequence of the second list? -/
def hasSub (pat : List Char) : List Char → Bool
  | [] => pat.isPrefixOf []
  | c :: rest => pat.isPrefixOf (c :: rest) || hasSub pat rest

/-- The substring test `r"Paging File(_Total)" in p` (line 184). -/
def containsTotal (p : String) : Bool :=
  hasSub ("Paging File(_Total)".toList) p.toList

/-- The pattern loop body of `PdhCounters._pick_paging_file_path`
(lines 165-187): for each wildcard pattern, phase 1 asks for the buffer
size, phase 2 expands; the result is split on NUL (the oracle already
returns the split list) and empty strings are discarded; a path containing
`Paging File(_Total)` is preferred, else the first expanded path. -/
def pickAux (env : PdhEnv) :
    List String → (String → Option Int) → (String → Option Int) × Option String
  | [], st => (st, none)
  | pat :: rest, st =>
    let e1 := env.expand1 pat
    let st1 := mapInsert ("expand1:" ++ pat) e1.1 st
    if (e1.1 ≠ PDH_MORE_DATA ∧ e1.1 ≠ 0) ∨ e1.2 = 0 then
      pickAux env rest st1
    else
      let e2 := env.expand2 pat
      let st2 := mapInsert ("expand2:" ++ pat) e2.1 st1
      if e2.1 ≠ 0 then
        pickAux env rest st2
      else
        let paths := e2.2.filter (fun s => s ≠ "")
        if paths = [] then
          pickAux env rest st2
        else
          match paths.find? containsTotal with
          | some p => (st2, some p)
          | none => (st2, some (paths.headD ""))

/-- The candidate-list builder `both` (lines 113-117): bare path first,
then the machine-qualified path when a machine name is known. -/
def bothPaths (pre : String) (path : String) : List String :=
  if pre = "" then [path] else [path, pre ++ path]

/-- Model of `PdhCounters._pick_paging_file_path` (lines 165-187): iterate over the
bare pattern and, when a machine name is known, the qualified pattern. -/
def pickPagingFilePath (env : PdhEnv) (pre : String)
    (st : String → Option Int) : (String → Option Int) × Option String :=
  pickAux env
    (["\\Paging File(*)\\% Usage"] ++
      (if pre = "" then [] else [pre ++ "\\Paging File(*)\\% Usage"])) st

/-- Lines 134-138 of `PdhCounters.__init__`: register the wildcard-resolved
paging-file path when resolution succeeded, else fall back to the hardcoded
`\Paging File(_Total)\% Usage` candidates. -/
def pfUsageCandidates (env : PdhEnv) (pre : String)
    (st : String → Option Int) : (String → Option Int) × List String :=
  let r := pickPagingFilePath env pre st
  match r.2 with
  | some p => (r.1, [p])
  | none => (r.1, bothPaths pre "\\Paging File(_Total)\\% Usage")

/-- The state of a `PdhCounters` object: availability flag, the three
diagnostic dictionaries, and the six metric handles (`0` = null). -/
structure Session where
  ok : Bool
  addStatus : String → Option Int
  chosen : String → Option String
  readStatus : String → Option Int
  hPageFaults : Nat
  hPagesSec : Nat
  hPageReads : Nat
  hCompSize : Nat
  hAvailBytes : Nat
  hPfUsage : Nat

/-- The freshly-constructed object state before any native call succeeds
(lines 60-73): `_ok = False`, all handles null, empty dictionaries. -/
def emptySession : Session :=
  { ok := false
    addStatus := fun _ => none
    chosen := fun _ => none
    readStatus := fun _ => none
    hPageFaults := 0
    hPagesSec := 0
    hPageReads := 0
    hCompSize := 0
    hAvailBytes := 0
    hPfUsage := 0 }

/-- Model of `PdhCounters.__init__` (lines 60-144).  Early returns: library load
failure, both add entry points missing, or a non-zero `PdhOpenQueryW`
status leave `_ok = False` (with the open status recorded in the last
case).  Otherwise the six metrics are registered in source order, the
paging-file path is resolved with fallback, the initial collect is made
(its status is discarded) and `_ok` becomes `True`. -/
def initSession (env : PdhEnv) : Session :=
  if env.loadOk = false then emptySession
  else if env.hasAddEnglish = false ∧ env.hasAddStd = false then emptySession
  else
    let s1 := { emptySession with
      addStatus := mapInsert "PdhOpenQueryW" env.openStatus emptySession.addStatus }
    if env.openStatus ≠ 0 then s1
    else
      let pre := if env.machine = "" then "" else "\\\\" ++ env.machine
      let r0 : RegState := ⟨s1.addStatus, fun _ => none⟩
      let a1 := addCounterMulti env "page_faults"
        (bothPaths pre "\\Memory\\Page Faults/sec") r0 0
      let a2 := addCounterMulti env "pages_sec"
        (bothPaths pre "\\Memory\\Pages/sec") a1.1 0
      let a3 := addCounterMulti env "page_reads"
        (bothPaths pre "\\Memory\\Page Reads/sec") a2.1 0
      let compCands :=
        bothPaths pre "\\Memory\\Compressed Page Size" ++
        bothPaths pre "\\Memory\\Compressed Bytes" ++
        bothPaths pre "\\Memory\\System Compressed Bytes"
      let a4 := addCounterMulti env "comp_size" compCands a3.1 0
      let a5 := addCounterMulti env "avail_bytes"
        (bothPaths pre "\\Memory\\Available Bytes") a4.1 0
      let pf := pfUsageCandidates env pre a5.1.addStatus
      let a6 := addCounterMulti env "pf_usage" pf.2 ⟨pf.1, a5.1.chosen⟩ 0
      { ok := true
        addStatus := a6.1.addStatus
        chosen := a6.1.chosen
        readStatus := fun _ => none
        hPageFaults := a1.2
        hPagesSec := a2.2
        hPageReads := a3.2
        hCompSize := a4.2
        hAvailBytes := a5.2
        hPfUsage := a6.2 }

/-- Model of `PdhCounters.sample` (lines 193-199): no-op when `_ok` is false,
else one `PdhCollectQueryData` call whose status is discarded.  The
session state itself is untouched in both branches. -/
def Session.sample (env : PdhEnv) (s : Session) : Session :=
  if s.ok = false then s
  else
    let _st := env.collectStatus
    s

/-- Model of `PdhCounters._read_double` (lines 201-210): empty when the session is
unavailable or the handle is null (state untouched); otherwise the format
call is made, its status recorded in `_read_status`, and the value is
returned only on status 0. -/
def Session.readDouble (env : PdhEnv) (s : Session) (h : Nat) (key : String) :
    Session × Option ℚ :=
  if s.ok = false ∨ h = 0 then (s, none)
  else
    let r := env.getFmtDouble h
    let s1 := { s with readStatus := mapInsert key r.1 s.readStatus }
    (s1, if r.1 = 0 then some r.2 else none)

/-- Model of `PdhCounters._read_large` (lines 212-221): same shape as
`_read_double` with the large-integer format kind. -/
def Session.readLarge (env : PdhEnv) (s : Session) (h : Nat) (key : String) :
    Session × Option ℤ :=
  if s.ok = false ∨ h = 0 then (s, none)
  else
    let r := env.getFmtLarge h
    let s1 := { s with readStatus := mapInsert key r.1 s.readStatus }
    (s1, if r.1 = 0 then some r.2 else none)

/-- Model of `page_faults_per_sec` (lines 223-224). -/
def Session.pageFaultsPerSec (env : PdhEnv) (s : Session) : Session × Option ℚ :=
  Session.readDouble env s s.hPageFaults "page_faults"

/-- Model of `pages_per_sec` (lines 226-227). -/
def Session.pagesPerSec (env : PdhEnv) (s : Session) : Session × Option ℚ :=
  Session.readDouble env s s.hPagesSec "pages_sec"

/-- Model of `page_reads_per_sec` (lines 229-230). -/
def Session.pageReadsPerSec (env : PdhEnv) (s : Session) : Session × Option ℚ :=
  Session.readDouble env s s.hPageReads "page_reads"

/-- Model of `compressed_bytes` (lines 232-234). -/
def Session.compressedBytes (env : PdhEnv) (s : Session) : Session × Option ℤ :=
  Session.readLarge env s s.hCompSize "comp_bytes"

/-- Model of `available_bytes` (lines 236-237). -/
def Session.availableBytes (env : PdhEnv) (s : Session) : Session × Option ℤ :=
  Session.readLarge env s s.hAvailBytes "avail_bytes"

/-- Model of `paging_file_percent_usage` (lines 239-240). -/
def Session.pagingFilePercentUsage (env : PdhEnv) (s : Session) : Session × Option ℚ :=
  Session.readDouble env s s.hPfUsage "pf_usage"

/-- One operation a caller can perform on a live session after
construction: a sample or one of the six typed reads. -/
inductive Op : Type
  | sample
  | pageFaults
  | pagesSec
  | pageReads
  | compBytes
  | availBytes
  | pfUsage

/-- The session state resulting from one operation. -/
def applyOp (env : PdhEnv) (s : Session) : Op → Session
  | Op.sample => Session.sample env s
  | Op.pageFaults => (Session.pageFaultsPerSec env s).1
  | Op.pagesSec => (Session.pagesPerSec env s).1
  | Op.pageReads => (Session.pageReadsPerSec env s).1
  | Op.compBytes => (Session.compressedBytes env s).1
  | Op.availBytes => (Session.availableBytes env s).1
  | Op.pfUsage => (Session.pagingFilePercentUsage env s).1

/-- The session state after a sequence of operations. -/
def applyOps (env : PdhEnv) (ops : List Op) (s : Session) : Session :=
  ops.foldl (applyOp env) s

/-- The `EMA` class (lines 289-302): a smoothing coefficient and an
optional current smoothed value. -/
structure EMA where
  alpha : ℚ
  v : Option ℚ

/-- Model of `EMA.update` (lines 295-302): absent input returns the stored value
unchanged; the first present value seeds the state; later present values
apply `alpha * x + (1 - alpha) * v`.  Returns the new state and the
returned value (`self.v` after the update). -/
def EMA.update (e : EMA) (x : Option ℚ) : EMA × Option ℚ :=
  match x with
  | none => (e, e.v)
  | some x =>
    match e.v with
    | none => (⟨e.alpha, some x⟩, some x)
    | some v =>
      (⟨e.alpha, some (e.alpha * x + (1 - e.alpha) * v)⟩,
        some (e.alpha * x + (1 - e.alpha) * v))

/-- The smoothing coefficient used by `draw_monitor` (lines 376-378):
`EMA(alpha=2.0 / (10.0 + 1.0))`. -/
def monitorAlpha : ℚ := 2 / (10 + 1)

/-- The Python idiom `x or 0.0` on an optional float: absent and `0.0` both give
`0.0`, every other value passes through. -/
def pyOrZeroQ (o : Option ℚ) : ℚ :=
  match o with
  | none => 0
  | some x => if x = 0 then 0 else x

/-- Model of `hardfault_label` (lines 304-321): the ordered threshold cascade. -/
def hardfault_label (readsOpt pagesOpt : Option ℚ) : String :=
  let r := pyOrZeroQ readsOpt
  let p := pyOrZeroQ pagesOpt
  if r ≥ 100 then "HOT"
  else if r ≥ 20 then "WARN"
  else if p ≥ 500 then "WARN"
  else "OK"

/-- The label policy as the specification states it: inputs treated as 0
when absent; reads ≥ 100 → HOT; else reads ≥ 20 → WARN; else
pages ≥ 500 → WARN; else OK. -/
def labelSpec (readsOpt pagesOpt : Option ℚ) : String :=
  let r := readsOpt.getD 0
  let p := pagesOpt.getD 0
  if r ≥ 100 then "HOT"
  else if r ≥ 20 then "WARN"
  else if p ≥ 500 then "WARN"
  else "OK"

/-- The Python `round` on a real argument: nearest integer, ties to the
even neighbour (as `int(round(x))` computes on line 339). -/
noncomputable def pyround (x : ℝ) : ℤ :=
  if x - ⌊x⌋ = 1 / 2 then (if ⌊x⌋ % 2 = 0 then ⌊x⌋ else ⌊x⌋ + 1)
  else round x

/-- The Python idiom `x or 0.0` on an optional float, real-valued version
(lines 328-329 apply it before the `max`). -/
noncomputable def pyOrZeroR (o : Option ℝ) : ℝ :=
  match o with
  | none => 0
  | some x => if x = 0 then 0 else x

/-- The reads component of `hardfault_index` (lines 332-334): zero when
`r ≤ 0`, else the stretched logarithmic map capped at 80. -/
noncomputable def scoreR (r : ℝ) : ℝ :=
  if 0 < r then
    min 80 (20 * (Real.logb 10 (1 + r) / Real.logb 10 (1 + 200)) * 4)
  else 0

/-- The pages component of `hardfault_index` (line 337). -/
noncomputable def scoreP (p : ℝ) : ℝ :=
  min 20 (p / 2000 * 20)

/-- Model of `hardfault_index` (lines 323-339): clamp each defaulted input to
non-negative, sum the two components, clamp at 100, round. -/
noncomputable def hardfault_index (readsOpt pagesOpt : Option ℝ) : ℤ :=
  let r := max 0 (pyOrZeroR readsOpt)
  let p := max 0 (pyOrZeroR pagesOpt)
  pyround (min 100 (scoreR r + scoreP p))

/-- The index policy as the specification states it: inputs treated as 0
when absent, `R = min 80 (80 * log10(1+reads)/log10(1+200))`,
`P = min 20 (pages/2000*20)`, result `round (min 100 (R + P))`. -/
noncomputable def indexSpec (readsOpt pagesOpt : Option ℝ) : ℤ :=
  let r := readsOpt.getD 0
  let p := pagesOpt.getD 0
  let bigR := min 80 (80 * (Real.logb 10 (1 + r) / Real.logb 10 (1 + 200)))
  let bigP := min 20 (p / 2000 * 20)
  pyround (min 100 (bigR + bigP))

/-! ### Helper lemmas -/

theorem pyOrZeroQ_getD (o : Option ℚ) : pyOrZeroQ o = o.getD 0 := by
  cases o with
  | none => rfl
  | some x =>
    by_cases hx : x = 0 <;> simp [pyOrZeroQ, hx]

theorem pyOrZeroR_getD (o : Option ℝ) : pyOrZeroR o = o.getD 0 := by
  cases o with
  | none => rfl
  | some x =>
    by_cases hx : x = 0 <;> simp [pyOrZeroR, hx]

/-- A generic concrete environment used to instantiate hypotheses of the
claim theorems on concrete inputs. -/
def env0 : PdhEnv :=
  { loadOk := true
    hasAddEnglish := true
    hasAddStd := false
    openStatus := 0
    add := fun p => if p = "A" then (1, 11) else (0, 22)
    collectStatus := 0
    getFmtDouble := fun _ => (1, 0)
    getFmtLarge := fun _ => (1, 0)
    expand1 := fun _ => (PDH_MORE_DATA, 64)
    expand2 := fun _ =>
      (0, ["\\Paging File(C:)\\% Usage", "\\Paging File(_Total)\\% Usage"])
    machine := "" }

/-! ### Claim theorems -/

/-- C1: for every pair of optional rate inputs, each treated as 0 when
absent, the pressure label follows the ordered first-match cascade
reads ≥ 100 → HOT, reads ≥ 20 → WARN, pages ≥ 500 → WARN, else OK; in
particular (150,0) ↦ HOT, (50,0) ↦ WARN, (0,600) ↦ WARN, (0,0) ↦ OK. -/
theorem C1_label_policy :
    (∀ readsOpt pagesOpt : Option ℚ,
      hardfault_label readsOpt pagesOpt = labelSpec readsOpt pagesOpt)
    ∧ hardfault_label (some 150) (some 0) = "HOT"
    ∧ hardfault_label (some 50) (some 0) = "WARN"
    ∧ hardfault_label (some 0) (some 600) = "WARN"
    ∧ hardfault_label (some 0) (some 0) = "OK" := by
  refine ⟨fun readsOpt pagesOpt => ?_, by decide, by decide, by decide, by decide⟩
  simp only [hardfault_label, labelSpec, pyOrZeroQ_getD]

/-- C4: updating the smoother with an absent input returns the previous
smoothed value with the state unchanged; the first present observation
seeds the state to that observation exactly; every later present
observation applies `smoothed = α·raw + (1-α)·smoothed`; and the monitor
instantiates the smoothers with `α = 2/(10+1) = 2/11`. -/
theorem C4_ema_update :
    (∀ (a : ℚ) (vo : Option ℚ), (EMA.mk a vo).update none = (EMA.mk a vo, vo))
    ∧ (∀ a x : ℚ, (EMA.mk a none).update (some x) = (EMA.mk a (some x), some x))
    ∧ (∀ a v x : ℚ,
        (EMA.mk a (some v)).update (some x) =
          (EMA.mk a (some (a * x + (1 - a) * v)), some (a * x + (1 - a) * v)))
    ∧ monitorAlpha = 2 / 11 :=
  ⟨fun _ _ => rfl, fun _ _ => rfl, fun _ _ _ => rfl, by norm_num [monitorAlpha]⟩

/-- C5: the typed reads return empty whenever the session is unavailable
(for any handle), whenever the handle is null, and whenever the native
format call returns a non-success status. -/
theorem C5_reads_empty :
    (∀ (env : PdhEnv) (s : Session) (h : Nat) (k : String), s.ok = false →
      (Session.readDouble env s h k).2 = none ∧ (Session.readLarge env s h k).2 = none)
    ∧ (∀ (env : PdhEnv) (s : Session) (k : String),
      (Session.readDouble env s 0 k).2 = none ∧ (Session.readLarge env s 0 k).2 = none)
    ∧ (∀ (env : PdhEnv) (s : Session) (h : Nat) (k : String),
      (env.getFmtDouble h).1 ≠ 0 → (Session.readDouble env s h k).2 = none)
    ∧ (∀ (env : PdhEnv) (s : Session) (h : Nat) (k : String),
      (env.getFmtLarge h).1 ≠ 0 → (Session.readLarge env s h k).2 = none) := by
  refine ⟨fun env s h k hok => ?_, fun env s k => ?_, fun env s h k hst => ?_,
    fun env s h k hst => ?_⟩
  · constructor <;> simp [Session.readDouble, Session.readLarge, hok]
  · constructor <;> simp [Session.readDouble, Session.readLarge]
  · simp only [Session.readDouble]
    split_ifs with hg
    · rfl
    · simp [hst]
  · simp only [Session.readLarge]
    split_ifs with hg
    · rfl
    · simp [hst]

/-- Witness for C5 at a concrete environment and the fresh (unavailable)
session. -/
theorem C5_reads_empty_witness :
    (Session.readDouble env0 emptySession 3 "page_reads").2 = none ∧
      (Session.readLarge env0 emptySession 3 "page_reads").2 = none :=
  C5_reads_empty.1 env0 emptySession 3 "page_reads" rfl

/-- C10: a read that returns empty because the session is unavailable or
the handle is null leaves the whole session — in particular the
`_read_status` map — unchanged; when the format call is actually made,
exactly the key of the metric is recorded with the status of the call. -/
theorem C10_read_status_frame :
    (∀ (env : PdhEnv) (s : Session) (h : Nat) (k : String),
      s.ok = false ∨ h = 0 →
        Session.readDouble env s h k = (s, none) ∧
        Session.readLarge env s h k = (s, none))
    ∧ (∀ (env : PdhEnv) (s : Session) (h : Nat) (k : String),
      s.ok = true → h ≠ 0 →
        (Session.readDouble env s h k).1.readStatus =
          mapInsert k (env.getFmtDouble h).1 s.readStatus ∧
        (Session.readLarge env s h k).1.readStatus =
          mapInsert k (env.getFmtLarge h).1 s.readStatus) := by
  constructor
  · intro env s h k hg
    constructor <;> simp [Session.readDouble, Session.readLarge, hg]
  · intro env s h k hok hh
    constructor <;> simp [Session.readDouble, Session.readLarge, hok, hh]

/-- Witness for C10 at a concrete environment and the fresh session with
a null handle. -/
theorem C10_read_status_frame_witness :
    Session.readDouble env0 emptySession 0 "pf_usage" = (emptySession, none) ∧
      Session.readLarge env0 emptySession 0 "pf_usage" = (emptySession, none) :=
  C10_read_status_frame.1 env0 emptySession 0 "pf_usage" (Or.inr rfl)

/-! ### Rounding lemmas -/

theorem pyround_le (x : ℝ) : (pyround x : ℝ) ≤ x + 1 / 2 := by
  unfold pyround
  split_ifs with h1 h2
  · have : (⌊x⌋ : ℝ) = x - 1 / 2 := by linarith
    rw [this]; linarith
  · have : (⌊x⌋ : ℝ) = x - 1 / 2 := by linarith
    push_cast
    rw [this]; linarith
  · have hb := abs_sub_round x
    rw [abs_le] at hb
    linarith [hb.1, hb.2]

theorem le_pyround (x : ℝ) : x - 1 / 2 ≤ (pyround x : ℝ) := by
  unfold pyround
  split_ifs with h1 h2
  · have : (⌊x⌋ : ℝ) = x - 1 / 2 := by linarith
    rw [this]
  · have : (⌊x⌋ : ℝ) = x - 1 / 2 := by linarith
    push_cast
    rw [this]; linarith
  · have hb := abs_sub_round x
    rw [abs_le] at hb
    linarith [hb.1, hb.2]

theorem pyround_mono {x y : ℝ} (h : x ≤ y) : pyround x ≤ pyround y := by
  by_contra hc
  push_neg at hc
  have h3 : (pyround y : ℝ) + 1 ≤ (pyround x : ℝ) := by
    have := Int.add_one_le_iff.mpr hc
    exact_mod_cast this
  have h1 := pyround_le x
  have h2 := le_pyround y
  have hxy : x = y := le_antisymm h (by linarith)
  rw [hxy] at hc
  exact lt_irrefl _ hc

/-! ### Component bounds and monotonicity for the pressure index -/

theorem logDenomPos : 0 < Real.logb 10 (1 + 200) :=
  Real.logb_pos (by norm_num) (by norm_num)

theorem pyOrZeroR_some (x : ℝ) : pyOrZeroR (some x) = x := by
  by_cases hx : x = 0 <;> simp [pyOrZeroR, hx]

theorem scoreR_nonneg {r : ℝ} (hr : 0 ≤ r) : 0 ≤ scoreR r := by
  have hr1 : (1 : ℝ) ≤ 1 + r := by linarith
  unfold scoreR
  split_ifs with h
  · refine le_min (by norm_num) ?_
    have h1 : 0 ≤ Real.logb 10 (1 + r) :=
      Real.logb_nonneg (by norm_num) hr1
    have h2 := logDenomPos
    have h3 : 0 ≤ Real.logb 10 (1 + r) / Real.logb 10 (1 + 200) :=
      div_nonneg h1 h2.le
    linarith
  · exact le_refl 0

theorem scoreR_le (r : ℝ) : scoreR r ≤ 80 := by
  unfold scoreR
  split_ifs with h
  · exact min_le_left _ _
  · norm_num

theorem scoreP_nonneg {p : ℝ} (hp : 0 ≤ p) : 0 ≤ scoreP p :=
  le_min (by norm_num) (mul_nonneg (div_nonneg hp (by norm_num)) (by norm_num))

theorem scoreP_le (p : ℝ) : scoreP p ≤ 20 :=
  min_le_left _ _

theorem scoreR_mono {a b : ℝ} (ha : 0 ≤ a) (h : a ≤ b) : scoreR a ≤ scoreR b := by
  by_cases h1 : 0 < a
  · have h2 : 0 < b := lt_of_lt_of_le h1 h
    simp only [scoreR]
    rw [if_pos h1, if_pos h2]
    refine min_le_min (le_refl _) ?_
    have hlog : Real.logb 10 (1 + a) ≤ Real.logb 10 (1 + b) :=
      Real.logb_le_logb_of_le (by norm_num) (by linarith) (by linarith)
    have hdiv : Real.logb 10 (1 + a) / Real.logb 10 (1 + 200) ≤
        Real.logb 10 (1 + b) / Real.logb 10 (1 + 200) :=
      (div_le_div_iff_of_pos_right logDenomPos).mpr hlog
    linarith
  · have ha0 : scoreR a = 0 := by
      simp only [scoreR]
      rw [if_neg h1]
    rw [ha0]
    exact scoreR_nonneg (ha.trans h)

theorem scoreP_mono {a b : ℝ} (h : a ≤ b) : scoreP a ≤ scoreP b :=
  min_le_min (le_refl _) (by linarith)

theorem hardfault_index_def (readsOpt pagesOpt : Option ℝ) :
    hardfault_index readsOpt pagesOpt =
      pyround (min 100 (scoreR (max 0 (pyOrZeroR readsOpt)) +
        scoreP (max 0 (pyOrZeroR pagesOpt)))) := rfl

theorem hardfault_index_bounds (readsOpt pagesOpt : Option ℝ) :
    0 ≤ hardfault_index readsOpt pagesOpt ∧ hardfault_index readsOpt pagesOpt ≤ 100 := by
  rw [hardfault_index_def]
  have hr : (0 : ℝ) ≤ max 0 (pyOrZeroR readsOpt) := le_max_left _ _
  have hp : (0 : ℝ) ≤ max 0 (pyOrZeroR pagesOpt) := le_max_left _ _
  set r := max 0 (pyOrZeroR readsOpt)
  set p := max 0 (pyOrZeroR pagesOpt)
  have hv0 : (0 : ℝ) ≤ min 100 (scoreR r + scoreP p) :=
    le_min (by norm_num) (add_nonneg (scoreR_nonneg hr) (scoreP_nonneg hp))
  have hv1 : min 100 (scoreR r + scoreP p) ≤ 100 := min_le_left _ _
  set v := min 100 (scoreR r + scoreP p)
  constructor
  · have h1 := le_pyround v
    have h2 : (-1 : ℝ) < (pyround v : ℝ) := by linarith
    have h3 : (-1 : ℤ) < pyround v := by exact_mod_cast h2
    omega
  · have h1 := pyround_le v
    have h2 : (pyround v : ℝ) < 101 := by linarith
    have h3 : pyround v < (101 : ℤ) := by exact_mod_cast h2
    omega

theorem scoreR_eq_spec {r : ℝ} (hr : 0 ≤ r) :
    scoreR r = min 80 (80 * (Real.logb 10 (1 + r) / Real.logb 10 (1 + 200))) := by
  unfold scoreR
  split_ifs with h
  · congr 1
    ring
  · have hr0 : r = 0 := le_antisymm (not_lt.mp h) hr
    rw [hr0]
    norm_num [Real.logb_one]

theorem indexSpec_def (readsOpt pagesOpt : Option ℝ) :
    indexSpec readsOpt pagesOpt =
      pyround (min 100
        (min 80 (80 * (Real.logb 10 (1 + readsOpt.getD 0) / Real.logb 10 (1 + 200))) +
          min 20 (pagesOpt.getD 0 / 2000 * 20))) := rfl

/-- C2: for inputs treated as 0 when absent (and non-negative when
present), the pressure index is the rounded value of `min 100 (R + P)`
with `R = min 80 (80·log10(1+reads)/log10(1+200))` and
`P = min 20 (pages/2000·20)`, and the result always lies in `[0, 100]`. -/
theorem C2_index_formula :
    ∀ readsOpt pagesOpt : Option ℝ,
      0 ≤ readsOpt.getD 0 → 0 ≤ pagesOpt.getD 0 →
      hardfault_index readsOpt pagesOpt = indexSpec readsOpt pagesOpt ∧
      0 ≤ hardfault_index readsOpt pagesOpt ∧
      hardfault_index readsOpt pagesOpt ≤ 100 := by
  intro readsOpt pagesOpt hr hp
  refine ⟨?_, (hardfault_index_bounds readsOpt pagesOpt).1,
    (hardfault_index_bounds readsOpt pagesOpt).2⟩
  rw [hardfault_index_def, indexSpec_def, pyOrZeroR_getD, pyOrZeroR_getD,
    max_eq_right hr, max_eq_right hp, scoreR_eq_spec hr]
  rfl

/-- Witness for C2 at reads = 150, pages = 0. -/
theorem C2_index_formula_witness :
    hardfault_index (some 150) (some 0) = indexSpec (some 150) (some 0) ∧
      0 ≤ hardfault_index (some 150) (some 0) ∧
      hardfault_index (some 150) (some 0) ≤ 100 :=
  C2_index_formula (some 150) (some 0)
    (by simp only [Option.getD_some]; norm_num)
    (by simp only [Option.getD_some]; norm_num)

/-- C3: the pressure index is monotonically non-decreasing in the reads
input with pages fixed, and in the pages input with reads fixed, for all
non-negative inputs. -/
theorem C3_index_monotone :
    (∀ r1 r2 p : ℝ, 0 ≤ r1 → r1 ≤ r2 → 0 ≤ p →
      hardfault_index (some r1) (some p) ≤ hardfault_index (some r2) (some p)) ∧
    (∀ r p1 p2 : ℝ, 0 ≤ r → 0 ≤ p1 → p1 ≤ p2 →
      hardfault_index (some r) (some p1) ≤ hardfault_index (some r) (some p2)) := by
  constructor
  · intro r1 r2 p h1 h12 hp
    rw [hardfault_index_def, hardfault_index_def]
    simp only [pyOrZeroR_some]
    rw [max_eq_right h1, max_eq_right (h1.trans h12), max_eq_right hp]
    apply pyround_mono
    exact min_le_min (le_refl _) (add_le_add (scoreR_mono h1 h12) (le_refl _))
  · intro r p1 p2 hr h1 h12
    rw [hardfault_index_def, hardfault_index_def]
    simp only [pyOrZeroR_some]
    rw [max_eq_right hr, max_eq_right h1, max_eq_right (h1.trans h12)]
    apply pyround_mono
    exact min_le_min (le_refl _) (add_le_add (le_refl _) (scoreP_mono h12))

/-- Witness for C3 at concrete points in each argument. -/
theorem C3_index_monotone_witness :
    hardfault_index (some 0) (some 0) ≤ hardfault_index (some 5) (some 0) ∧
      hardfault_index (some 0) (some 0) ≤ hardfault_index (some 0) (some 700) :=
  ⟨C3_index_monotone.1 0 5 0 (by norm_num) (by norm_num) (by norm_num),
    C3_index_monotone.2 0 0 700 (by norm_num) (by norm_num) (by norm_num)⟩

/-- C9: the index clamps each input to non-negative before scoring —
the value at any real inputs equals the value at their non-negative
clamps — so it is defined and stays in `[0, 100]` even for negative rate
inputs. -/
theorem C9_negative_inputs_clamped :
    ∀ r p : ℝ,
      hardfault_index (some r) (some p) =
        hardfault_index (some (max 0 r)) (some (max 0 p)) ∧
      0 ≤ hardfault_index (some r) (some p) ∧
      hardfault_index (some r) (some p) ≤ 100 := by
  intro r p
  refine ⟨?_, (hardfault_index_bounds _ _).1, (hardfault_index_bounds _ _).2⟩
  rw [hardfault_index_def, hardfault_index_def]
  simp only [pyOrZeroR_some, ← max_assoc, max_self]

/-! ### Registration lemmas -/

theorem addMulti_nil (env : PdhEnv) (name : String) (st : RegState) (h : Nat) :
    addCounterMulti env name [] st h = (st, h) := rfl

theorem addMulti_cons (env : PdhEnv) (name q : String) (rest : List String)
    (st : RegState) (h : Nat) :
    addCounterMulti env name (q :: rest) st h =
      if (env.add q).1 = 0 then
        (⟨mapInsert q (env.add q).1 st.addStatus, mapInsert name q st.chosen⟩,
          (env.add q).2)
      else
        addCounterMulti env name rest
          { st with addStatus := mapInsert q (env.add q).1 st.addStatus } h := rfl

theorem addMulti_status_preserve (env : PdhEnv) (name : String) :
    ∀ (cands : List String) (st : RegState) (h : Nat) (p : String),
      st.addStatus p = some (env.add p).1 →
      (addCounterMulti env name cands st h).1.addStatus p = some (env.add p).1 := by
  intro cands
  induction cands with
  | nil => intro st h p hp; exact hp
  | cons q rest ih =>
    intro st h p hp
    rw [addMulti_cons]
    by_cases hq : (env.add q).1 = 0
    · rw [if_pos hq]
      show mapInsert q (env.add q).1 st.addStatus p = _
      unfold mapInsert
      by_cases hpq : p = q
      · subst hpq; simp
      · simp [hpq, hp]
    · rw [if_neg hq]
      apply ih
      show mapInsert q (env.add q).1 st.addStatus p = _
      unfold mapInsert
      by_cases hpq : p = q
      · subst hpq; simp
      · simp [hpq, hp]

theorem addMulti_allFail (env : PdhEnv) (name : String) :
    ∀ (cands : List String) (st : RegState) (h : Nat),
      (∀ p ∈ cands, (env.add p).1 ≠ 0) →
      (addCounterMulti env name cands st h).2 = h ∧
      (addCounterMulti env name cands st h).1.chosen = st.chosen ∧
      ∀ p ∈ cands,
        (addCounterMulti env name cands st h).1.addStatus p = some (env.add p).1 := by
  intro cands
  induction cands with
  | nil => intro st h _; exact ⟨rfl, rfl, by simp⟩
  | cons q rest ih =>
    intro st h hfail
    have hq : (env.add q).1 ≠ 0 := hfail q (List.mem_cons_self q rest)
    rw [addMulti_cons, if_neg hq]
    obtain ⟨ih1, ih2, ih3⟩ :=
      ih { st with addStatus := mapInsert q (env.add q).1 st.addStatus } h
        (fun p hp => hfail p (List.mem_cons_of_mem q hp))
    refine ⟨ih1, ih2, ?_⟩
    intro p hp
    rcases List.mem_cons.mp hp with hpq | hpr
    · subst hpq
      apply addMulti_status_preserve
      unfold mapInsert
      simp
    · exact ih3 p hpr

theorem addMulti_stop (env : PdhEnv) (name p : String)
    (hp : (env.add p).1 = 0) :
    ∀ (pre : List String) (st : RegState) (h : Nat) (post : List String),
      (∀ q ∈ pre, (env.add q).1 ≠ 0) →
      addCounterMulti env name (pre ++ p :: post) st h =
        addCounterMulti env name (pre ++ [p]) st h := by
  intro pre
  induction pre with
  | nil =>
    intro st h post _
    simp only [List.nil_append]
    rw [addMulti_cons, addMulti_cons, if_pos hp, if_pos hp]
  | cons q pre ih =>
    intro st h post hf
    have hq : (env.add q).1 ≠ 0 := hf q (List.mem_cons_self q pre)
    simp only [List.cons_append]
    rw [addMulti_cons, addMulti_cons, if_neg hq, if_neg hq]
    exact ih _ h post (fun x hx => hf x (List.mem_cons_of_mem q hx))

theorem addMulti_firstSuccess (env : PdhEnv) (name p : String)
    (hp : (env.add p).1 = 0) :
    ∀ (pre : List String) (st : RegState) (h : Nat),
      (∀ q ∈ pre, (env.add q).1 ≠ 0) →
      (addCounterMulti env name (pre ++ [p]) st h).2 = (env.add p).2 ∧
      (addCounterMulti env name (pre ++ [p]) st h).1.chosen name = some p ∧
      (addCounterMulti env name (pre ++ [p]) st h).1.addStatus p =
        some (env.add p).1 ∧
      ∀ q ∈ pre,
        (addCounterMulti env name (pre ++ [p]) st h).1.addStatus q =
          some (env.add q).1 := by
  intro pre
  induction pre with
  | nil =>
    intro st h _
    simp only [List.nil_append]
    rw [addMulti_cons, if_pos hp]
    refine ⟨rfl, ?_, ?_, by simp⟩
    · show mapInsert name p st.chosen name = some p
      unfold mapInsert
      simp
    · show mapInsert p (env.add p).1 st.addStatus p = some (env.add p).1
      unfold mapInsert
      simp
  | cons q pre ih =>
    intro st h hf
    have hq : (env.add q).1 ≠ 0 := hf q (List.mem_cons_self q pre)
    simp only [List.cons_append]
    rw [addMulti_cons, if_neg hq]
    obtain ⟨ih1, ih2, ih3, ih4⟩ :=
      ih { st with addStatus := mapInsert q (env.add q).1 st.addStatus } h
        (fun x hx => hf x (List.mem_cons_of_mem q hx))
    refine ⟨ih1, ih2, ih3, ?_⟩
    intro x hx
    rcases List.mem_cons.mp hx with hxq | hxr
    · subst hxq
      apply addMulti_status_preserve
      unfold mapInsert
      simp
    · exact ih4 x hxr

/-- C6: registration tries candidates in order; it records the status of
every attempted candidate; the handle of the first successful candidate is
stored (and recorded as the chosen path) and no later candidate is
attempted; if every candidate fails, the handle is left at its initial
(null) value; in particular with two candidates where the first fails and
the second succeeds, the stored handle comes from the second one and both
attempt statuses are recorded. -/
theorem C6_registration_first_success :
    (∀ (env : PdhEnv) (name : String) (cands : List String) (st : RegState) (h : Nat),
      (∀ p ∈ cands, (env.add p).1 ≠ 0) →
      (addCounterMulti env name cands st h).2 = h ∧
      ∀ p ∈ cands,
        (addCounterMulti env name cands st h).1.addStatus p = some (env.add p).1)
    ∧ (∀ (env : PdhEnv) (name p : String) (pre post : List String)
        (st : RegState) (h : Nat),
      (∀ q ∈ pre, (env.add q).1 ≠ 0) → (env.add p).1 = 0 →
      addCounterMulti env name (pre ++ p :: post) st h =
        addCounterMulti env name (pre ++ [p]) st h ∧
      (addCounterMulti env name (pre ++ p :: post) st h).2 = (env.add p).2 ∧
      (addCounterMulti env name (pre ++ p :: post) st h).1.chosen name = some p ∧
      (addCounterMulti env name (pre ++ p :: post) st h).1.addStatus p =
        some (env.add p).1 ∧
      ∀ q ∈ pre,
        (addCounterMulti env name (pre ++ p :: post) st h).1.addStatus q =
          some (env.add q).1)
    ∧ (∀ (env : PdhEnv) (name p1 p2 : String) (st : RegState) (h : Nat),
      (env.add p1).1 ≠ 0 → (env.add p2).1 = 0 →
      (addCounterMulti env name [p1, p2] st h).2 = (env.add p2).2 ∧
      (addCounterMulti env name [p1, p2] st h).1.addStatus p1 =
        some (env.add p1).1 ∧
      (addCounterMulti env name [p1, p2] st h).1.addStatus p2 =
        some (env.add p2).1 ∧
      (addCounterMulti env name [p1, p2] st h).1.chosen name = some p2) := by
  have stopFS : ∀ (env : PdhEnv) (name p : String) (pre post : List String)
      (st : RegState) (h : Nat),
      (∀ q ∈ pre, (env.add q).1 ≠ 0) → (env.add p).1 = 0 →
      addCounterMulti env name (pre ++ p :: post) st h =
        addCounterMulti env name (pre ++ [p]) st h ∧
      (addCounterMulti env name (pre ++ p :: post) st h).2 = (env.add p).2 ∧
      (addCounterMulti env name (pre ++ p :: post) st h).1.chosen name = some p ∧
      (addCounterMulti env name (pre ++ p :: post) st h).1.addStatus p =
        some (env.add p).1 ∧
      ∀ q ∈ pre,
        (addCounterMulti env name (pre ++ p :: post) st h).1.addStatus q =
          some (env.add q).1 := by
    intro env name p pre post st h hf hp
    have hstop := addMulti_stop env name p hp pre st h post hf
    obtain ⟨f1, f2, f3, f4⟩ := addMulti_firstSuccess env name p hp pre st h hf
    rw [hstop]
    exact ⟨rfl, f1, f2, f3, f4⟩
  refine ⟨?_, stopFS, ?_⟩
  · intro env name cands st h hfail
    obtain ⟨a1, _, a3⟩ := addMulti_allFail env name cands st h hfail
    exact ⟨a1, a3⟩
  · intro env name p1 p2 st h h1 h2
    have hf : ∀ q ∈ [p1], (env.add q).1 ≠ 0 := by
      intro q hq
      rcases List.mem_singleton.mp hq with rfl
      exact h1
    obtain ⟨_, f2, f3, f4, f5⟩ := stopFS env name p2 [p1] [] st h hf h2
    exact ⟨f2, f5 p1 (List.mem_singleton.mpr rfl), f4, f3⟩

/-- Witness for C6: a concrete two-candidate registration where the
first candidate fails with status 1 and the second succeeds. -/
theorem C6_registration_first_success_witness :
    (addCounterMulti env0 "pf" ["A", "B"] ⟨fun _ => none, fun _ => none⟩ 0).2 =
      (env0.add "B").2 ∧
    (addCounterMulti env0 "pf" ["A", "B"] ⟨fun _ => none, fun _ => none⟩ 0).1.addStatus
      "A" = some (env0.add "A").1 ∧
    (addCounterMulti env0 "pf" ["A", "B"] ⟨fun _ => none, fun _ => none⟩ 0).1.addStatus
      "B" = some (env0.add "B").1 ∧
    (addCounterMulti env0 "pf" ["A", "B"] ⟨fun _ => none, fun _ => none⟩ 0).1.chosen
      "pf" = some "B" :=
  C6_registration_first_success.2.2 env0 "pf" "A" "B" ⟨fun _ => none, fun _ => none⟩ 0
    (by simp [env0]) (by simp [env0])

/-! ### Wildcard-expansion lemmas -/

theorem pickAux_nil (env : PdhEnv) (st : String → Option Int) :
    pickAux env [] st = (st, none) := rfl

theorem pickAux_cons (env : PdhEnv) (pat : String) (rest : List String)
    (st : String → Option Int) :
    pickAux env (pat :: rest) st =
      if ((env.expand1 pat).1 ≠ PDH_MORE_DATA ∧ (env.expand1 pat).1 ≠ 0) ∨
          (env.expand1 pat).2 = 0 then
        pickAux env rest (mapInsert ("expand1:" ++ pat) (env.expand1 pat).1 st)
      else if (env.expand2 pat).1 ≠ 0 then
        pickAux env rest (mapInsert ("expand2:" ++ pat) (env.expand2 pat).1
          (mapInsert ("expand1:" ++ pat) (env.expand1 pat).1 st))
      else if ((env.expand2 pat).2.filter (fun s => s ≠ "")) = [] then
        pickAux env rest (mapInsert ("expand2:" ++ pat) (env.expand2 pat).1
          (mapInsert ("expand1:" ++ pat) (env.expand1 pat).1 st))
      else
        match ((env.expand2 pat).2.filter (fun s => s ≠ "")).find? containsTotal with
        | some p =>
          (mapInsert ("expand2:" ++ pat) (env.expand2 pat).1
            (mapInsert ("expand1:" ++ pat) (env.expand1 pat).1 st), some p)
        | none =>
          (mapInsert ("expand2:" ++ pat) (env.expand2 pat).1
            (mapInsert ("expand1:" ++ pat) (env.expand1 pat).1 st),
            some (((env.expand2 pat).2.filter (fun s => s ≠ "")).headD "")) := rfl

theorem find?_eq_some_of_unique {α : Type} (f : α → Bool) :
    ∀ (l : List α) (p : α), p ∈ l → f p = true →
      (∀ q ∈ l, f q = true → q = p) → l.find? f = some p := by
  intro l
  induction l with
  | nil => intro p hmem; cases hmem
  | cons a l ih =>
    intro p hmem hp huniq
    by_cases ha : f a = true
    · have hap : a = p := huniq a (List.mem_cons_self a l) ha
      rw [List.find?_cons_of_pos l ha, hap]
    · rw [List.find?_cons_of_neg l (by simp [ha])]
      have hpl : p ∈ l := by
        rcases List.mem_cons.mp hmem with rfl | h
        · exact absurd hp ha
        · exact h
      exact ih p hpl hp (fun q hq => huniq q (List.mem_cons_of_mem a hq))

/-- One wildcard pattern contributes nothing when phase 1 fails (bad
status or zero size), phase 2 fails, or the filtered expansion is empty. -/
def expandFails (env : PdhEnv) (pat : String) : Prop :=
  (((env.expand1 pat).1 ≠ PDH_MORE_DATA ∧ (env.expand1 pat).1 ≠ 0) ∨
    (env.expand1 pat).2 = 0)
  ∨ (env.expand2 pat).1 ≠ 0
  ∨ ((env.expand2 pat).2.filter (fun s => s ≠ "")) = []

theorem pickAux_none (env : PdhEnv) :
    ∀ (pats : List String) (st : String → Option Int),
      (∀ pat ∈ pats, expandFails env pat) → (pickAux env pats st).2 = none := by
  intro pats
  induction pats with
  | nil => intro st _; rfl
  | cons pat rest ih =>
    intro st hf
    have hp := hf pat (List.mem_cons_self pat rest)
    have hrest : ∀ x ∈ rest, expandFails env x :=
      fun x hx => hf x (List.mem_cons_of_mem pat hx)
    rw [pickAux_cons]
    by_cases c1 : ((env.expand1 pat).1 ≠ PDH_MORE_DATA ∧ (env.expand1 pat).1 ≠ 0) ∨
        (env.expand1 pat).2 = 0
    · rw [if_pos c1]; exact ih _ hrest
    · rw [if_neg c1]
      by_cases c2 : (env.expand2 pat).1 ≠ 0
      · rw [if_pos c2]; exact ih _ hrest
      · rw [if_neg c2]
        have c3 : ((env.expand2 pat).2.filter (fun s => s ≠ "")) = [] := by
          rcases hp with h | h | h
          · exact absurd h c1
          · exact absurd h c2
          · exact h
        rw [if_pos c3]; exact ih _ hrest

/-- C7: among a successfully expanded non-empty instance list, the entry
containing the aggregate marker `Paging File(_Total)` is selected whenever
present, regardless of position; otherwise the first entry in
subsystem-returned order is selected; if expansion fails for every pattern
(bad status at either phase, or empty result), the resolver yields nothing
and the caller falls back to the hardcoded `\Paging File(_Total)\% Usage`
candidates; the concrete buffer-too-small-then-success scenario with the
`_Total` entry listed second still selects the `_Total` entry. -/
theorem C7_total_preferred :
    (∀ (env : PdhEnv) (st : String → Option Int) (pat : String)
        (rest : List String) (p : String),
      ((env.expand1 pat).1 = PDH_MORE_DATA ∨ (env.expand1 pat).1 = 0) →
      (env.expand1 pat).2 ≠ 0 →
      (env.expand2 pat).1 = 0 →
      p ∈ (env.expand2 pat).2.filter (fun s => s ≠ "") →
      containsTotal p = true →
      (∀ q ∈ (env.expand2 pat).2.filter (fun s => s ≠ ""),
        containsTotal q = true → q = p) →
      (pickAux env (pat :: rest) st).2 = some p)
    ∧ (∀ (env : PdhEnv) (st : String → Option Int) (pat : String)
        (rest : List String),
      ((env.expand1 pat).1 = PDH_MORE_DATA ∨ (env.expand1 pat).1 = 0) →
      (env.expand1 pat).2 ≠ 0 →
      (env.expand2 pat).1 = 0 →
      ((env.expand2 pat).2.filter (fun s => s ≠ "")) ≠ [] →
      (∀ q ∈ (env.expand2 pat).2.filter (fun s => s ≠ ""),
        containsTotal q = false) →
      (pickAux env (pat :: rest) st).2 =
        some (((env.expand2 pat).2.filter (fun s => s ≠ "")).headD ""))
    ∧ (∀ (env : PdhEnv) (pats : List String) (st : String → Option Int),
      (∀ pat ∈ pats, expandFails env pat) → (pickAux env pats st).2 = none)
    ∧ (∀ (env : PdhEnv) (pre : String) (st : String → Option Int),
      (pickPagingFilePath env pre st).2 = none →
      (pfUsageCandidates env pre st).2 =
        bothPaths pre "\\Paging File(_Total)\\% Usage")
    ∧ (pickAux env0 ["\\Paging File(*)\\% Usage"] (fun _ => none)).2 =
        some "\\Paging File(_Total)\\% Usage" := by
  have hreduce : ∀ (env : PdhEnv) (st : String → Option Int) (pat : String)
      (rest : List String),
      ((env.expand1 pat).1 = PDH_MORE_DATA ∨ (env.expand1 pat).1 = 0) →
      (env.expand1 pat).2 ≠ 0 →
      (env.expand2 pat).1 = 0 →
      ((env.expand2 pat).2.filter (fun s => s ≠ "")) ≠ [] →
      pickAux env (pat :: rest) st =
        match ((env.expand2 pat).2.filter (fun s => s ≠ "")).find? containsTotal with
        | some p =>
          (mapInsert ("expand2:" ++ pat) (env.expand2 pat).1
            (mapInsert ("expand1:" ++ pat) (env.expand1 pat).1 st), some p)
        | none =>
          (mapInsert ("expand2:" ++ pat) (env.expand2 pat).1
            (mapInsert ("expand1:" ++ pat) (env.expand1 pat).1 st),
            some (((env.expand2 pat).2.filter (fun s => s ≠ "")).headD "")) := by
    intro env st pat rest h1 h2 h3 h4
    rw [pickAux_cons]
    have hc1 : ¬(((env.expand1 pat).1 ≠ PDH_MORE_DATA ∧ (env.expand1 pat).1 ≠ 0) ∨
        (env.expand1 pat).2 = 0) := by
      rcases h1 with h | h <;> simp [h, h2]
    rw [if_neg hc1, if_neg (by simp [h3]), if_neg h4]
  refine ⟨?_, ?_, pickAux_none, ?_, ?_⟩
  · intro env st pat rest p h1 h2 h3 hmem hptot huniq
    rw [hreduce env st pat rest h1 h2 h3 (List.ne_nil_of_mem hmem)]
    rw [find?_eq_some_of_unique containsTotal _ p hmem hptot huniq]
  · intro env st pat rest h1 h2 h3 hne hnone
    rw [hreduce env st pat rest h1 h2 h3 hne]
    have hfind : ((env.expand2 pat).2.filter (fun s => s ≠ "")).find? containsTotal =
        none :=
      List.find?_eq_none.mpr (fun x hx => by simp [hnone x hx])
    rw [hfind]
  · intro env pre st hnone
    simp only [pfUsageCandidates]
    rw [hnone]
  · rfl

/-- A concrete environment whose wildcard expansion fails at phase 1. -/
def envExpandFail : PdhEnv := { env0 with expand1 := fun _ => (1, 0) }

/-- Witness for C7: with the failing expansion environment, the caller
falls back to the hardcoded aggregate path. -/
theorem C7_total_preferred_witness :
    (pfUsageCandidates envExpandFail "" (fun _ => none)).2 =
      bothPaths "" "\\Paging File(_Total)\\% Usage" :=
  C7_total_preferred.2.2.2.1 envExpandFail "" (fun _ => none) rfl

/-! ### Availability lemmas -/

theorem readDouble_ok (env : PdhEnv) (s : Session) (h : Nat) (k : String) :
    (Session.readDouble env s h k).1.ok = s.ok := by
  unfold Session.readDouble
  split_ifs <;> rfl

theorem readLarge_ok (env : PdhEnv) (s : Session) (h : Nat) (k : String) :
    (Session.readLarge env s h k).1.ok = s.ok := by
  unfold Session.readLarge
  split_ifs <;> rfl

theorem applyOp_ok (env : PdhEnv) (s : Session) (op : Op) :
    (applyOp env s op).ok = s.ok := by
  cases op with
  | sample =>
    show (Session.sample env s).ok = s.ok
    unfold Session.sample
    split_ifs <;> rfl
  | pageFaults => exact readDouble_ok env s s.hPageFaults "page_faults"
  | pagesSec => exact readDouble_ok env s s.hPagesSec "pages_sec"
  | pageReads => exact readDouble_ok env s s.hPageReads "page_reads"
  | compBytes => exact readLarge_ok env s s.hCompSize "comp_bytes"
  | availBytes => exact readLarge_ok env s s.hAvailBytes "avail_bytes"
  | pfUsage => exact readDouble_ok env s s.hPfUsage "pf_usage"

theorem applyOps_ok (env : PdhEnv) :
    ∀ (ops : List Op) (s : Session), (applyOps env ops s).ok = s.ok := by
  intro ops
  induction ops with
  | nil => intro s; rfl
  | cons op rest ih =>
    intro s
    calc (applyOps env (op :: rest) s).ok
        = (applyOps env rest (applyOp env s op)).ok := rfl
      _ = (applyOp env s op).ok := ih _
      _ = s.ok := applyOp_ok env s op

/-- C8: a session that fails to open — library load failure, missing add
entry point, or non-zero open status — is unavailable; no operation
(sample or read) ever changes the availability flag, so an unavailable
session stays unavailable forever; while unavailable, sample is a no-op
and every read returns empty. -/
theorem C8_unavailable_forever :
    (∀ env : PdhEnv, env.loadOk = false → (initSession env).ok = false)
    ∧ (∀ env : PdhEnv, env.hasAddEnglish = false → env.hasAddStd = false →
        (initSession env).ok = false)
    ∧ (∀ env : PdhEnv, env.openStatus ≠ 0 → (initSession env).ok = false)
    ∧ (∀ (env : PdhEnv) (ops : List Op) (s : Session),
        (applyOps env ops s).ok = s.ok)
    ∧ (∀ (env : PdhEnv) (s : Session), s.ok = false → Session.sample env s = s)
    ∧ (∀ (env : PdhEnv) (s : Session) (h : Nat) (k : String), s.ok = false →
        (Session.readDouble env s h k).2 = none ∧
        (Session.readLarge env s h k).2 = none) := by
  refine ⟨?_, ?_, ?_, fun env ops s => applyOps_ok env ops s, ?_, ?_⟩
  · intro env h
    simp [initSession, h, emptySession]
  · intro env h1 h2
    by_cases hl : env.loadOk = false
    · simp [initSession, hl, emptySession]
    · simp [initSession, hl, h1, h2, emptySession]
  · intro env h
    by_cases hl : env.loadOk = false
    · simp [initSession, hl, emptySession]
    · by_cases ha : env.hasAddEnglish = false ∧ env.hasAddStd = false
      · simp [initSession, hl, ha, emptySession]
      · simp [initSession, hl, ha, h, emptySession]
  · intro env s h
    unfold Session.sample
    rw [if_pos h]
  · intro env s h k hok
    constructor <;> simp [Session.readDouble, Session.readLarge, hok]

/-- A concrete environment whose library load fails. -/
def envLoadFail : PdhEnv := { env0 with loadOk := false }

/-- Witness for C8: the session opened against the load-failure
environment is unavailable. -/
theorem C8_unavailable_forever_witness : (initSession envLoadFail).ok = false :=
  C8_unavailable_forever.1 envLoadFail rfl

end WinMon
